import Mathlib

/-!
# Canary controller: health check (`plugins/prometheus/monitor.go`) and canary strategy

A shallow embedding of `Plugin.Check` of the Prometheus monitor, and of the canary
strategy plugin exercised by `plugins/canary/plugin_test.go`.

Conventions of the embedding:

* a Go `error` is an `Option String` (`none` is `nil`, `some msg` carries `err.Error()`);
* Go `int` values are mathematical integers (every arithmetic step below stays far
  inside 64 bits for the values the code can hold); the conversion `int(x)` of a float
  is the truncation when the result fits in 64 bits, and a parameter for every other
  float;
* calls to the metrics backend are recorded in a trace, in call order;
* logging is dropped.
-/

set_option linter.dupNamespace false
set_option linter.unusedVariables false

/-- Substring test on texts, as `strings.Contains text part`. -/
def Contains (text part : String) : Prop := part.data <:+: text.data

instance (text part : String) : Decidable (Contains text part) := by
  unfold Contains; infer_instance

namespace Prometheus

/-- A `float64` sample value (`model.SampleValue`): a finite value `mant * 2 ^ exp`, NaN,
or an infinity. -/
inductive SampleValue where
  | finite (mant : Int) (exp : Int)
  | nan
  | inf (negative : Bool)
deriving DecidableEq, Repr

/-- The number the finite value `mant * 2 ^ exp` denotes. -/
def finiteValue (mant exp : Int) : ℚ := (mant : ℚ) * (2 : ℚ) ^ exp

/-- The finite value `mant * 2 ^ exp` without its fraction (truncation towards zero). -/
def truncate (mant exp : Int) : Int :=
  if 0 ≤ exp then mant * 2 ^ exp.toNat else Int.tdiv mant (2 ^ (-exp).toNat)

/-- A `model.Value` returned by the backend: a `model.Vector` (only the sample values
matter to `Check`) or a value of any other kind. -/
inductive Value where
  | vector (samples : List SampleValue)
  | other (kind : String)
deriving DecidableEq, Repr

/-- Query config. -/
structure Query where
  Name : String
  Preset : String
  Query : String
  Min : Option Int
  Max : Option Int
deriving DecidableEq, Repr

structure PluginConfig where
  Address : String
  Queries : List Query
deriving DecidableEq, Repr

/-- What `Check` uses from outside `monitor.go`: the two preset constants of the package,
`text/template` (parse of the text under the name "query" followed by execution with
`Name`, `Namespace` and `Interval = interval.String()`), the `%v` rendering of a backend
value, and the result of the conversion `int(x)` on a float that no `int` represents. -/
structure Lib where
  KubernetesEnvoyRequestSuccess : String
  KubernetesEnvoyRequestDuration : String
  template : String → String → String → Int → Except String String
  fmtValue : Value → String
  intOutOfRange : SampleValue → Int

/-- Go conversion `int(x)` of a `float64` on a 64-bit platform: the fraction is discarded
(truncation towards zero) when the result fits in 64 bits; for every other value (a
finite value too large, NaN, an infinity) the conversion succeeds with a result that
depends on the implementation, `L.intOutOfRange`. -/
def SampleValue.toInt (L : Lib) : SampleValue → Int
  | .finite mant exp =>
    if -(2 ^ 63) ≤ truncate mant exp ∧ truncate mant exp < 2 ^ 63 then truncate mant exp
    else L.intOutOfRange (.finite mant exp)
  | .nan => L.intOutOfRange .nan
  | .inf negative => L.intOutOfRange (.inf negative)

/-- The plugin. `client n address query` is the answer of `client.Query` to the `n`-th
backend call (counted from 0) of one `Check`. -/
structure Plugin where
  config : PluginConfig
  client : Nat → String → String → Except String Value
  runtime : String
  name : String
  namespace_ : String

/-- Result of one `Check`: the returned error and the queries sent to the backend. -/
structure CheckResult where
  err : Option String
  queried : List String
deriving DecidableEq, Repr

/-- The key the preset switch is taken on: `fmt.Sprintf("%s-%s", s.runtime, q.Preset)`. -/
def presetKey (runtime : String) (q : Query) : String := runtime ++ "-" ++ q.Preset

/-- Body of the first loop of `Check`: the query text of one entry. -/
def resolvePreset (L : Lib) (runtime : String) (q : Query) : Except String String :=
  if q.Preset ≠ "" then
    if presetKey runtime q = "kubernetes-envoy-request-success" then
      .ok L.KubernetesEnvoyRequestSuccess
    else if presetKey runtime q = "kubernetes-envoy-request-duration" then
      .ok L.KubernetesEnvoyRequestDuration
    else
      .error ("preset query " ++ q.Preset ++ ", does not exist")
  else
    .ok q.Query

/-- First loop of `Check`: `querySQL` is extended entry by entry, the first unknown preset
returns. -/
def buildQuerySQL (L : Lib) (runtime : String) : List Query → List String → Except String (List String)
  | [], querySQL => .ok querySQL
  | q :: qs, querySQL =>
    match resolvePreset L runtime q with
    | .error e => .error e
    | .ok text => buildQuerySQL L runtime qs (querySQL ++ [text])

/-- The test on the value returned by the backend (the type switch on `model.Vector`,
the length test and the two bounds). -/
def checkValue (L : Lib) (query : Query) (val : Value) : Option String :=
  match val with
  | .vector v =>
    match v with
    | [] =>
      some ("check failed for query " ++ query.Name ++ " using preset " ++ query.Preset ++
        ", null value returned by query: " ++ L.fmtValue val)
    | s :: _ =>
      let value := s.toInt L
      let failMin := match query.Min with
        | some m => decide (value < m)
        | none => false
      let failMax := match query.Max with
        | some m => decide (s.toInt L > m)
        | none => false
      if failMin || failMax then
        some ("check failed for query " ++ query.Name ++ " using preset " ++ query.Preset ++
          ", got value " ++ toString value)
      else none
  | .other _ =>
    some ("check failed for query " ++ query.Name ++ " using preset " ++ query.Preset ++
      ", got value " ++ L.fmtValue val)

/-- How one iteration of the second loop ends. -/
inductive Outcome where
  | pass (sent : String)
  | abort (err : String)
  | fail (sent : String) (err : String)
deriving DecidableEq, Repr

/-- Body of the second loop of `Check` for index `i` and text `q` of `querySQL`. -/
def execQuery (L : Lib) (s : Plugin) (interval : Int) (i : Nat) (q : String) : Outcome :=
  match s.config.Queries[i]? with
  | none => .abort "runtime error: index out of range"
  | some query =>
    if q = "" then
      .abort ("query " ++ query.Name ++ " is empty, please specify a valid Prometheus query")
    else
      match L.template q s.name s.namespace_ interval with
      | .error e => .abort e
      | .ok out =>
        match s.client i s.config.Address out with
        | .error e => .fail out e
        | .ok val =>
          match checkValue L query val with
          | some e => .fail out e
          | none => .pass out

/-- Second loop of `Check`, from index `i` on, `queried` being the backend calls so far. -/
def runQueries (L : Lib) (s : Plugin) (interval : Int) : Nat → List String → List String → CheckResult
  | _, [], queried => ⟨none, queried⟩
  | i, q :: rest, queried =>
    match execQuery L s interval i q with
    | .pass out => runQueries L s interval (i + 1) rest (queried ++ [out])
    | .abort e => ⟨some e, queried⟩
    | .fail out e => ⟨some e, queried ++ [out]⟩

/-- `Plugin.Check` on a configured plugin. -/
def Check (L : Lib) (s : Plugin) (interval : Int) : CheckResult :=
  match buildQuerySQL L s.runtime s.config.Queries [] with
  | .error e => ⟨some e, []⟩
  | .ok querySQL => runQueries L s interval 0 querySQL []

/-- Whether a text holds the action delimiter of `text/template`. -/
def hasAction : List Char → Bool
  | '\x7b' :: '\x7b' :: _ => true
  | _ :: cs => hasAction cs
  | [] => false

/-- `text/template` on texts without an action: the text is written out unchanged. Texts
with an action are not handled by this stand-in and are reported as errors. -/
def plainTemplate (text name ns : String) (interval : Int) : Except String String :=
  if hasAction text.data then .error "template: query: action outside the plain stand-in"
  else .ok text

/-- A library instance for concrete runs: two preset texts without actions, and the
result of amd64 for a conversion out of range. -/
def plainLib : Lib where
  KubernetesEnvoyRequestSuccess := "envoy_cluster_upstream_rq_success"
  KubernetesEnvoyRequestDuration := "envoy_cluster_upstream_rq_time"
  template := plainTemplate
  fmtValue := fun v => match v with
    | .vector [] => ""
    | .vector _ => "vector"
    | .other kind => kind
  intOutOfRange := fun _ => -9223372036854775808

/-- The error an iteration returns, if any. -/
def Outcome.err : Outcome → Option String
  | .pass _ => none
  | .abort e => some e
  | .fail _ e => some e

/-- The backend calls of an iteration. -/
def Outcome.sent : Outcome → List String
  | .pass out => [out]
  | .abort _ => []
  | .fail out _ => [out]

/-- The text sent to the backend for a query text: the template output. -/
def sentOf (L : Lib) (s : Plugin) (interval : Int) (q : String) : String :=
  match L.template q s.name s.namespace_ interval with
  | .ok out => out
  | .error _ => ""

/-- One custom query without bounds, against a backend that has no data. -/
def noDataPlugin : Plugin where
  config := ⟨"http://prometheus:9090", [⟨"errors", "", "up", none, none⟩]⟩
  client := fun _ _ _ => .ok (.vector [])
  runtime := "kubernetes"
  name := "api"
  namespace_ := "default"

/-- One custom query bounded above by 100, against a backend whose sample is 100.5. -/
def fractionalPlugin : Plugin where
  config := ⟨"http://prometheus:9090", [⟨"latency", "", "up", none, some 100⟩]⟩
  client := fun _ _ _ => .ok (.vector [.finite 201 (-1)])
  runtime := "kubernetes"
  name := "api"
  namespace_ := "default"

/-- One custom query bounded above by 100, against a backend whose sample is 101. -/
def aboveMaxPlugin : Plugin where
  config := ⟨"http://prometheus:9090", [⟨"latency", "", "up", none, some 100⟩]⟩
  client := fun _ _ _ => .ok (.vector [.finite 101 0])
  runtime := "kubernetes"
  name := "api"
  namespace_ := "default"

/-- Three custom queries; the backend answers 5 to the first call and has no data after. -/
def threeQueryPlugin : Plugin where
  config := ⟨"http://prometheus:9090",
    [⟨"success", "", "up", some 1, none⟩, ⟨"errors", "", "rq_errors", none, none⟩,
      ⟨"latency", "", "rq_time", none, some 200⟩]⟩
  client := fun n _ _ => if n = 0 then .ok (.vector [.finite 5 0]) else .ok (.vector [])
  runtime := "kubernetes"
  name := "api"
  namespace_ := "default"

/-- A custom query for which the backend has no data, followed by an entry with a preset
that does not exist. -/
def presetLastPlugin : Plugin where
  config := ⟨"http://prometheus:9090",
    [⟨"errors", "", "up", none, none⟩, ⟨"latency", "no-such-preset", "", none, none⟩]⟩
  client := fun _ _ _ => .ok (.vector [])
  runtime := "kubernetes"
  name := "api"
  namespace_ := "default"

/-- One entry with a preset that does not exist. -/
def unknownPresetPlugin : Plugin where
  config := ⟨"http://prometheus:9090", [⟨"latency", "no-such-preset", "", none, none⟩]⟩
  client := fun _ _ _ => .ok (.vector [.finite 5 0])
  runtime := "kubernetes"
  name := "api"
  namespace_ := "default"

/-- A runtime name with a dash in it, and a preset name that completes it to a known key. -/
def dashedRuntimePlugin : Plugin where
  config := ⟨"http://prometheus:9090", [⟨"success", "request-success", "", some 1, none⟩]⟩
  client := fun _ _ _ => .ok (.vector [.finite 99 0])
  runtime := "kubernetes-envoy"
  name := "api"
  namespace_ := "default"

/-- The runtime "kubernetes" with the request-duration preset and a custom text next to it. -/
def presetPlugin : Plugin where
  config := ⟨"http://prometheus:9090",
    [⟨"latency", "envoy-request-duration", "ignored_text", none, some 200⟩]⟩
  client := fun _ _ _ => .ok (.vector [.finite 99 0])
  runtime := "kubernetes"
  name := "api"
  namespace_ := "default"

/-- One custom query bounded below by 0, against a backend whose sample is -0.5. -/
def negativeFractionPlugin : Plugin where
  config := ⟨"http://prometheus:9090", [⟨"success", "", "up", some 0, none⟩]⟩
  client := fun _ _ _ => .ok (.vector [.finite (-1) (-1)])
  runtime := "kubernetes"
  name := "api"
  namespace_ := "default"

/-- Two custom queries; the backend answers 5 to the first call and a scalar to the
second. -/
def scalarPlugin : Plugin where
  config := ⟨"http://prometheus:9090",
    [⟨"success", "", "up", some 1, none⟩, ⟨"errors", "", "rq_errors", none, none⟩]⟩
  client := fun n _ _ => if n = 0 then .ok (.vector [.finite 5 0]) else .ok (.other "scalar")
  runtime := "kubernetes"
  name := "api"
  namespace_ := "default"

end Prometheus

namespace Canary

/-- Modelled from the spec: the status tokens of the strategy interface (§6), declared in
`plugins/interfaces`, which is not among the sources. -/
inductive StrategyStatus where
  | success
  | complete
  | fail
deriving DecidableEq, Repr

/-- Modelled from the spec: the configuration keys of the canary strategy as the wire
format carries them (§3, §6); `plugins/canary/plugin.go` is not among the sources.
`none` is an absent key, for the two keys that have a default. -/
structure RawConfig where
  interval : String
  initial_delay : Option String
  initial_traffic : Option Int
  traffic_step : Int
  max_traffic : Int
  error_threshold : Int
deriving DecidableEq, Repr

/-- Modelled from the spec: the validated configuration (§3) of `plugins/canary/plugin.go`,
durations in nanoseconds. -/
structure PluginConfig where
  Interval : Int
  InitialDelay : Int
  InitialTraffic : Int
  TrafficStep : Int
  MaxTraffic : Int
  ErrorThreshold : Int
deriving DecidableEq, Repr

/-- Modelled from the spec: what `Configure` of `plugins/canary/plugin.go` takes from
outside, the duration reader (nanoseconds, `none` when the text does not parse) and the
texts of the validation errors of the package (`ErrInvalidInitialDelay`,
`ErrInvalidInterval`, `ErrTrafficStep`, `ErrMaxTraffic` and `ErrThreshold` are named by
`plugin_test.go`; the error of the initial traffic rule is named after them). -/
structure Deps where
  parseDuration : String → Option Int
  ErrInvalidInitialDelay : String
  ErrInvalidInterval : String
  ErrInitialTraffic : String
  ErrTrafficStep : String
  ErrMaxTraffic : String
  ErrThreshold : String

/-- Modelled from the spec: the initial delay after defaulting (§4.1, "if `initial_delay`
is absent, it defaults to `interval`"). -/
def effectiveInitialDelay (raw : RawConfig) : String :=
  match raw.initial_delay with
  | some d => d
  | none => raw.interval

/-- Modelled from the spec: the initial traffic after defaulting (§4.1, "if absent,
defaults to `traffic_step`"). -/
def effectiveInitialTraffic (raw : RawConfig) : Int :=
  match raw.initial_traffic with
  | some t => t
  | none => raw.traffic_step

/-- Modelled from the spec: the duration rule of §4.1, a text that parses as a
non-negative duration. -/
def validDuration (D : Deps) (text : String) : Bool :=
  match D.parseDuration text with
  | some d => decide (0 ≤ d)
  | none => false

/-- Modelled from the spec: the validation of §4.1 in `Configure` of
`plugins/canary/plugin.go`; every rule is tested and every violation adds its error. -/
def validationErrors (D : Deps) (raw : RawConfig) : List String :=
  (if validDuration D (effectiveInitialDelay raw) then [] else [D.ErrInvalidInitialDelay]) ++
  (if validDuration D raw.interval then [] else [D.ErrInvalidInterval]) ++
  (if 0 ≤ effectiveInitialTraffic raw ∧ effectiveInitialTraffic raw ≤ 100 then []
    else [D.ErrInitialTraffic]) ++
  (if 1 ≤ raw.traffic_step ∧ raw.traffic_step ≤ 100 then [] else [D.ErrTrafficStep]) ++
  (if 0 ≤ raw.max_traffic ∧ raw.max_traffic ≤ 100 then [] else [D.ErrMaxTraffic]) ++
  (if 0 ≤ raw.error_threshold then [] else [D.ErrThreshold])

/-- Modelled from the spec: the joining of the validation errors into one text (§4.1, "all
are joined into one reported failure"), one error per line. -/
def joinErrors : List String → String
  | [] => ""
  | [m] => m
  | m :: ms => m ++ "\n" ++ joinErrors ms

/-- Modelled from the spec: `Configure` of `plugins/canary/plugin.go` (§4.1) on a decoded
configuration: the joined validation errors, or the configuration with its defaults. -/
def Configure (D : Deps) (raw : RawConfig) : Except String PluginConfig :=
  match validationErrors D raw with
  | [] =>
    .ok {
      Interval := (D.parseDuration raw.interval).getD 0
      InitialDelay := (D.parseDuration (effectiveInitialDelay raw)).getD 0
      InitialTraffic := effectiveInitialTraffic raw
      TrafficStep := raw.traffic_step
      MaxTraffic := raw.max_traffic
      ErrorThreshold := raw.error_threshold }
  | errs => .error (joinErrors errs)

/-- Modelled from the spec: the six validation rules of §4.1, by name. -/
inductive Rule where
  | initialDelay
  | interval
  | initialTraffic
  | trafficStep
  | maxTraffic
  | errorThreshold
deriving DecidableEq, Repr

/-- Modelled from the spec: when a configuration violates a rule of §4.1. -/
def Rule.violated (D : Deps) (raw : RawConfig) : Rule → Prop
  | .initialDelay => ¬ ∃ d, D.parseDuration (effectiveInitialDelay raw) = some d ∧ 0 ≤ d
  | .interval => ¬ ∃ d, D.parseDuration raw.interval = some d ∧ 0 ≤ d
  | .initialTraffic => effectiveInitialTraffic raw < 0 ∨ 100 < effectiveInitialTraffic raw
  | .trafficStep => raw.traffic_step < 1 ∨ 100 < raw.traffic_step
  | .maxTraffic => raw.max_traffic < 0 ∨ 100 < raw.max_traffic
  | .errorThreshold => raw.error_threshold < 0

/-- Modelled from the spec: the error text of a rule. -/
def Rule.message (D : Deps) : Rule → String
  | .initialDelay => D.ErrInvalidInitialDelay
  | .interval => D.ErrInvalidInterval
  | .initialTraffic => D.ErrInitialTraffic
  | .trafficStep => D.ErrTrafficStep
  | .maxTraffic => D.ErrMaxTraffic
  | .errorThreshold => D.ErrThreshold

/-- Modelled from the spec: the state of the strategy (§3), the plugin of
`plugins/canary/plugin.go` with its configuration and `currentTraffic`. -/
structure Plugin where
  config : PluginConfig
  currentTraffic : Int
deriving DecidableEq, Repr

/-- Modelled from the spec: a plugin right after construction, `currentTraffic` being the
sentinel -1 (§3). -/
def New (config : PluginConfig) : Plugin := ⟨config, -1⟩

/-- What one `Execute` returns and leaves behind: status, traffic, error, the plugin after
the call and the number of calls of `Monitor.Check`. -/
structure ExecuteResult where
  status : StrategyStatus
  traffic : Int
  err : Option String
  plugin : Plugin
  checks : Nat
deriving DecidableEq, Repr

/-- Modelled from the spec: the retry loop of `Execute` (§4.1 step 2), up to `attempts`
attempts; `monitor k interval` is the error of the `k`-th call of `Monitor.Check`, made
with `interval` (`none` is nil). Returns whether a check succeeded and the number of
calls made. The wait before each attempt is not represented. -/
def retryLoop (monitor : Nat → Int → Option String) (interval : Int) : Nat → Nat → Bool × Nat
  | 0, k => (false, k)
  | attempts + 1, k =>
    match monitor k interval with
    | none => (true, k + 1)
    | some _ => retryLoop monitor interval attempts (k + 1)

/-- Modelled from the spec: `Execute` of `plugins/canary/plugin.go` (§4.1): bootstrap on
the sentinel, else the retry loop and the advance step. -/
def Execute (monitor : Nat → Int → Option String) (p : Plugin) : ExecuteResult :=
  if p.currentTraffic = -1 then
    ⟨.success, p.config.InitialTraffic, none,
      { p with currentTraffic := p.config.InitialTraffic }, 0⟩
  else
    match retryLoop monitor p.config.Interval p.config.ErrorThreshold.toNat 0 with
    | (false, n) => ⟨.fail, 0, none, p, n⟩
    | (true, n) =>
      if p.currentTraffic + p.config.TrafficStep ≥ p.config.MaxTraffic then
        ⟨.complete, 100, none, { p with currentTraffic := 100 }, n⟩
      else
        ⟨.success, p.currentTraffic + p.config.TrafficStep, none,
          { p with currentTraffic := p.currentTraffic + p.config.TrafficStep }, n⟩

/-- Modelled from the spec: `GetCandidateTraffic` of `plugins/canary/plugin.go` (§4.1). -/
def GetCandidateTraffic (p : Plugin) : Int := p.currentTraffic

/-- Modelled from the spec: `GetPrimaryTraffic` of `plugins/canary/plugin.go` (§4.1). -/
def GetPrimaryTraffic (p : Plugin) : Int := 100 - p.currentTraffic

/-- Whether a character is a decimal digit. -/
def isDigit (c : Char) : Bool := decide ('0' ≤ c) && decide (c ≤ '9')

/-- The number written by a run of decimal digits. -/
def digitsValue (ds : List Char) : Nat :=
  ds.foldl (fun acc c => 10 * acc + (c.toNat - '0'.toNat)) 0

/-- Nanoseconds of a duration unit. -/
def unitNanos (u : String) : Option Nat :=
  if u = "ns" then some 1
  else if u = "us" then some 1000
  else if u = "µs" then some 1000
  else if u = "μs" then some 1000
  else if u = "ms" then some 1000000
  else if u = "s" then some 1000000000
  else if u = "m" then some 60000000000
  else if u = "h" then some 3600000000000
  else none

/-- The groups of a duration text, each a decimal number with an optional fraction
followed by a unit; a group without digits or without a unit does not parse. -/
def parseGroups : Nat → List Char → Nat → Option Nat
  | 0, _, _ => none
  | fuel + 1, cs, acc =>
    let whole := cs.takeWhile isDigit
    let r1 := cs.dropWhile isDigit
    let frac := match r1 with
      | '.' :: r => r.takeWhile isDigit
      | _ => []
    let r2 := match r1 with
      | '.' :: r => r.dropWhile isDigit
      | _ => r1
    if whole = [] ∧ frac = [] then none
    else
      let unit := r2.takeWhile (fun c => !(c = '.' || isDigit c))
      let r3 := r2.dropWhile (fun c => !(c = '.' || isDigit c))
      match unitNanos (String.mk unit) with
      | none => none
      | some u =>
        let v := digitsValue whole * u + digitsValue frac * u / 10 ^ frac.length
        if r3 = [] then some (acc + v) else parseGroups fuel r3 (acc + v)

/-- A reader of duration texts in the format "30s", "30ms", "1h30m" (an optional sign, "0",
or groups of number and unit), in nanoseconds, fractions cut to whole nanoseconds. -/
def parseDurationText (s : String) : Option Int :=
  let neg := match s.data with
    | '-' :: _ => true
    | _ => false
  let cs := match s.data with
    | '-' :: r => r
    | '+' :: r => r
    | r => r
  if cs = ['0'] then some 0
  else
    match parseGroups cs.length cs 0 with
    | none => none
    | some d => some (if neg then -(d : Int) else (d : Int))

/-- A concrete instance of the outside of `Configure`. -/
def testDeps : Deps where
  parseDuration := parseDurationText
  ErrInvalidInitialDelay := "InitialDelay is not a valid duration"
  ErrInvalidInterval := "Interval is not a valid duration"
  ErrInitialTraffic := "InitialTraffic must contain a value between 0 and 100"
  ErrTrafficStep := "TrafficStep must contain a value between 1 and 100"
  ErrMaxTraffic := "MaxTraffic must contain a value between 0 and 100"
  ErrThreshold := "ErrorThreshold must contain a value greater than or equal to 0"

/-- The configuration `canaryStrategy` of `plugin_test.go`. -/
def canaryStrategy : RawConfig :=
  ⟨"30ms", some "30ms", some 10, 10, 90, 5⟩

/-- The configuration `canaryStrategyWithoutInitial` of `plugin_test.go`. -/
def canaryStrategyWithoutInitial : RawConfig :=
  ⟨"30ms", some "30ms", none, 20, 90, 5⟩

/-- The configuration `canaryStrategyWithValidationErrors` of `plugin_test.go`. -/
def canaryStrategyWithValidationErrors : RawConfig :=
  ⟨"30", some "acs", some 101, 1100, -3, -1⟩

/-- The monitor of `TestReturnsErrorWhenChecksFail`: every `Check` returns an error. -/
def failingMonitor : Nat → Int → Option String := fun _ _ => some "boom"

/-- The default monitor of the mocks: every `Check` returns nil. -/
def passingMonitor : Nat → Int → Option String := fun _ _ => none

end Canary

namespace Prometheus

theorem tdiv_trunc_nonneg (a b : Int) (ha : 0 ≤ a) (hb : 0 < b) :
    b * Int.tdiv a b ≤ a ∧ a < b * (Int.tdiv a b + 1) := by
  have h1 := Int.tdiv_add_tmod a b
  have h2 := Int.tmod_nonneg b ha
  have h3 := Int.tmod_lt_of_pos a hb
  constructor
  · omega
  · rw [mul_add, mul_one]; omega

theorem tdiv_trunc_nonpos (a b : Int) (ha : a ≤ 0) (hb : 0 < b) :
    a ≤ b * Int.tdiv a b ∧ b * (Int.tdiv a b - 1) < a := by
  have h := tdiv_trunc_nonneg (-a) b (by omega) hb
  rw [Int.neg_tdiv] at h
  obtain ⟨h1, h2⟩ := h
  rw [mul_add, mul_one, mul_neg] at h2
  rw [mul_neg] at h1
  constructor
  · omega
  · rw [mul_sub, mul_one]; omega

theorem finiteValue_of_neg_exp (mant exp : Int) (h : ¬ 0 ≤ exp) :
    finiteValue mant exp * ((2 ^ (-exp).toNat : Int) : ℚ) = mant := by
  unfold finiteValue
  have hk : exp = -((-exp).toNat : Int) := by
    rw [Int.toNat_of_nonneg (by omega)]; omega
  have hpos : (2 : ℚ) ^ (-exp).toNat ≠ 0 := by positivity
  rw [mul_assoc]
  nth_rewrite 1 [hk]
  rw [zpow_neg, zpow_natCast]
  push_cast
  rw [inv_mul_cancel₀ hpos, mul_one]

/-- What `truncate` does: it returns the integer next to the value on the side of zero. -/
theorem truncate_spec (mant exp : Int) :
    (0 ≤ mant → (truncate mant exp : ℚ) ≤ finiteValue mant exp ∧
      finiteValue mant exp < truncate mant exp + 1) ∧
    (mant ≤ 0 → finiteValue mant exp ≤ truncate mant exp ∧
      (truncate mant exp : ℚ) - 1 < finiteValue mant exp) := by
  by_cases hexp : 0 ≤ exp
  · have heq : (truncate mant exp : ℚ) = finiteValue mant exp := by
      unfold truncate finiteValue
      rw [if_pos hexp]
      push_cast
      congr 1
      have hk : exp = (exp.toNat : Int) := (Int.toNat_of_nonneg hexp).symm
      nth_rewrite 2 [hk]
      rw [zpow_natCast]
    rw [heq]
    exact ⟨fun _ => ⟨le_refl _, by linarith⟩, fun _ => ⟨le_refl _, by linarith⟩⟩
  · have hval := finiteValue_of_neg_exp mant exp hexp
    have hint : truncate mant exp = Int.tdiv mant (2 ^ (-exp).toNat) := by
      unfold truncate; rw [if_neg hexp]
    have hbpos : (0 : Int) < 2 ^ (-exp).toNat := by positivity
    have hbposq : (0 : ℚ) < ((2 ^ (-exp).toNat : Int) : ℚ) := by exact_mod_cast hbpos
    rw [hint]
    constructor
    · intro hm
      obtain ⟨h1, h2⟩ := tdiv_trunc_nonneg mant _ hm hbpos
      have h1q : (((2 ^ (-exp).toNat : Int) * Int.tdiv mant (2 ^ (-exp).toNat) : Int) : ℚ)
          ≤ (mant : ℚ) := by exact_mod_cast h1
      have h2q : (mant : ℚ) <
          (((2 ^ (-exp).toNat : Int) * (Int.tdiv mant (2 ^ (-exp).toNat) + 1) : Int) : ℚ) := by
        exact_mod_cast h2
      rw [← hval] at h1q h2q
      push_cast at h1q h2q hbposq ⊢
      constructor
      · nlinarith
      · nlinarith
    · intro hm
      obtain ⟨h1, h2⟩ := tdiv_trunc_nonpos mant _ hm hbpos
      have h1q : (mant : ℚ) ≤
          (((2 ^ (-exp).toNat : Int) * Int.tdiv mant (2 ^ (-exp).toNat) : Int) : ℚ) := by
        exact_mod_cast h1
      have h2q : (((2 ^ (-exp).toNat : Int) * (Int.tdiv mant (2 ^ (-exp).toNat) - 1) : Int) : ℚ)
          < (mant : ℚ) := by
        exact_mod_cast h2
      rw [← hval] at h1q h2q
      push_cast at h1q h2q hbposq ⊢
      constructor
      · nlinarith
      · nlinarith

/-- On a finite value whose integer part fits in 64 bits, `int(x)` is the truncation. -/
theorem SampleValue.toInt_finite_in_range (L : Lib) (mant exp : Int)
    (h : -(2 ^ 63) ≤ truncate mant exp ∧ truncate mant exp < 2 ^ 63) :
    (SampleValue.finite mant exp).toInt L = truncate mant exp := by
  simp only [SampleValue.toInt]
  rw [if_pos h]


theorem execQuery_pass_sent {L : Lib} {s : Plugin} {interval : Int} {i : Nat} {q out : String}
    (h : execQuery L s interval i q = .pass out) : out = sentOf L s interval q := by
  unfold execQuery at h
  unfold sentOf
  split at h
  · cases h
  · split at h
    · cases h
    · split at h
      · cases h
      · rename_i o ho
        rw [ho]
        split at h
        · cases h
        · split at h
          · cases h
          · cases h; rfl

theorem buildQuerySQL_ok {L : Lib} {runtime : String} :
    ∀ (qs : List Query) (acc texts : List String),
      buildQuerySQL L runtime qs acc = .ok texts →
      ∃ ts, texts = acc ++ ts ∧ List.Forall₂ (fun q t => resolvePreset L runtime q = .ok t) qs ts := by
  intro qs
  induction qs with
  | nil =>
    intro acc texts h
    simp [buildQuerySQL] at h
    exact ⟨[], by simp [h], List.Forall₂.nil⟩
  | cons q qs ih =>
    intro acc texts h
    unfold buildQuerySQL at h
    split at h
    · cases h
    · rename_i text hq
      obtain ⟨ts, hts, hall⟩ := ih _ _ h
      exact ⟨text :: ts, by simp [hts], List.Forall₂.cons hq hall⟩

theorem buildQuerySQL_of_forall₂ {L : Lib} {runtime : String} :
    ∀ (qs : List Query) (ts acc : List String),
      List.Forall₂ (fun q t => resolvePreset L runtime q = .ok t) qs ts →
      buildQuerySQL L runtime qs acc = .ok (acc ++ ts) := by
  intro qs
  induction qs with
  | nil =>
    intro ts acc h
    cases h
    simp [buildQuerySQL]
  | cons q qs ih =>
    intro ts acc h
    cases h with
    | cons hq hall =>
      rename_i t ts'
      unfold buildQuerySQL
      rw [hq]
      simp only
      rw [ih _ _ hall]
      simp

theorem buildQuerySQL_error {L : Lib} {runtime : String} :
    ∀ (qs : List Query) (acc : List String) (i : Nat) (q : Query) (e : String),
      qs[i]? = some q →
      (∀ j q', j < i → qs[j]? = some q' → ∃ t, resolvePreset L runtime q' = .ok t) →
      resolvePreset L runtime q = .error e →
      buildQuerySQL L runtime qs acc = .error e := by
  intro qs
  induction qs with
  | nil => intro acc i q e hq; simp at hq
  | cons q0 qs ih =>
    intro acc i q e hq hbefore herr
    cases i with
    | zero =>
      simp at hq
      subst hq
      unfold buildQuerySQL
      rw [herr]
    | succ i =>
      obtain ⟨t, ht⟩ := hbefore 0 q0 (Nat.succ_pos _) (by simp)
      unfold buildQuerySQL
      rw [ht]
      simp only
      apply ih _ i q e (by simpa using hq) _ herr
      intro j q' hj hq'
      exact hbefore (j + 1) q' (Nat.succ_lt_succ hj) (by simpa using hq')

theorem buildQuerySQL_any_error {L : Lib} {runtime : String} :
    ∀ (qs : List Query) (acc : List String) (i : Nat) (q : Query) (e : String),
      qs[i]? = some q → resolvePreset L runtime q = .error e →
      ∃ e', buildQuerySQL L runtime qs acc = .error e' := by
  intro qs
  induction qs with
  | nil => intro acc i q e hq; simp at hq
  | cons q0 qs ih =>
    intro acc i q e hq herr
    unfold buildQuerySQL
    cases h0 : resolvePreset L runtime q0 with
    | error e0 => exact ⟨e0, rfl⟩
    | ok t =>
      cases i with
      | zero =>
        simp at hq
        subst hq
        rw [h0] at herr
        cases herr
      | succ i =>
        simp only
        exact ih _ i q e (by simpa using hq) herr

theorem forall₂_getElem? {α β : Type} {R : α → β → Prop} :
    ∀ {as : List α} {bs : List β}, List.Forall₂ R as bs →
      ∀ (i : Nat) (a : α), as[i]? = some a → ∃ b, bs[i]? = some b ∧ R a b := by
  intro as bs h
  induction h with
  | nil => intro i a ha; simp at ha
  | cons hab _ ih =>
    intro i a ha
    cases i with
    | zero => simp at ha; subst ha; exact ⟨_, by simp, hab⟩
    | succ i => simpa using ih i a (by simpa using ha)

theorem forall₂_getElem?_right {α β : Type} {R : α → β → Prop} :
    ∀ {as : List α} {bs : List β}, List.Forall₂ R as bs →
      ∀ (i : Nat) (b : β), bs[i]? = some b → ∃ a, as[i]? = some a ∧ R a b := by
  intro as bs h
  induction h with
  | nil => intro i a ha; simp at ha
  | cons hab _ ih =>
    intro i a ha
    cases i with
    | zero => simp at ha; subst ha; exact ⟨_, by simp, hab⟩
    | succ i => simpa using ih i a (by simpa using ha)


theorem runQueries_stop {L : Lib} {s : Plugin} {interval : Int} :
    ∀ (k : Nat) (texts : List String) (i0 : Nat) (queried : List String) (t : String),
      texts[k]? = some t →
      (∀ j u, j < k → texts[j]? = some u → ∃ out, execQuery L s interval (i0 + j) u = .pass out) →
      (∀ out, execQuery L s interval (i0 + k) t ≠ .pass out) →
      runQueries L s interval i0 texts queried =
        ⟨(execQuery L s interval (i0 + k) t).err,
          queried ++ (texts.take k).map (sentOf L s interval) ++
            (execQuery L s interval (i0 + k) t).sent⟩ := by
  intro k
  induction k with
  | zero =>
    intro texts i0 queried t ht _ hstop
    cases texts with
    | nil => simp at ht
    | cons u rest =>
      simp at ht
      subst ht
      unfold runQueries
      simp only [Nat.add_zero] at hstop ⊢
      cases h : execQuery L s interval i0 u with
      | pass out => exact absurd h (hstop out)
      | abort e => simp [Outcome.err, Outcome.sent]
      | fail out e => simp [Outcome.err, Outcome.sent]
  | succ k ih =>
    intro texts i0 queried t ht hbefore hstop
    cases texts with
    | nil => simp at ht
    | cons u rest =>
      obtain ⟨out, hout⟩ := hbefore 0 u (Nat.succ_pos _) (by simp)
      simp only [Nat.add_zero] at hout
      have hsent := execQuery_pass_sent hout
      unfold runQueries
      rw [hout]
      simp only
      have ht' : rest[k]? = some t := by simpa using ht
      have hidx : i0 + 1 + k = i0 + (k + 1) := by omega
      rw [ih rest (i0 + 1) (queried ++ [out]) t ht' ?_ ?_]
      · rw [hidx, hsent]
        simp
      · intro j v hj hv
        have := hbefore (j + 1) v (Nat.succ_lt_succ hj) (by simpa using hv)
        have hidx' : i0 + 1 + j = i0 + (j + 1) := by omega
        rw [hidx']
        exact this
      · rw [hidx]
        exact hstop

theorem runQueries_all_pass {L : Lib} {s : Plugin} {interval : Int} :
    ∀ (texts : List String) (i0 : Nat) (queried : List String),
      (∀ j u, texts[j]? = some u → ∃ out, execQuery L s interval (i0 + j) u = .pass out) →
      runQueries L s interval i0 texts queried =
        ⟨none, queried ++ texts.map (sentOf L s interval)⟩ := by
  intro texts
  induction texts with
  | nil => intro i0 queried _; simp [runQueries]
  | cons u rest ih =>
    intro i0 queried hall
    obtain ⟨out, hout⟩ := hall 0 u (by simp)
    simp only [Nat.add_zero] at hout
    have hsent := execQuery_pass_sent hout
    unfold runQueries
    rw [hout]
    simp only
    rw [ih (i0 + 1) (queried ++ [out]) ?_]
    · rw [hsent]; simp
    · intro j v hv
      have := hall (j + 1) v (by simpa using hv)
      have hidx' : i0 + 1 + j = i0 + (j + 1) := by omega
      rw [hidx']
      exact this

theorem runQueries_ok_all_pass {L : Lib} {s : Plugin} {interval : Int} :
    ∀ (texts : List String) (i0 : Nat) (queried : List String),
      (runQueries L s interval i0 texts queried).err = none →
      ∀ j u, texts[j]? = some u → ∃ out, execQuery L s interval (i0 + j) u = .pass out := by
  intro texts
  induction texts with
  | nil => intro i0 queried _ j u hu; simp at hu
  | cons u0 rest ih =>
    intro i0 queried hnone j u hu
    unfold runQueries at hnone
    cases h : execQuery L s interval i0 u0 with
    | abort e => rw [h] at hnone; simp at hnone
    | fail out e => rw [h] at hnone; simp at hnone
    | pass out =>
      rw [h] at hnone
      simp only at hnone
      cases j with
      | zero =>
        simp at hu
        subst hu
        exact ⟨out, by simpa using h⟩
      | succ j =>
        have := ih (i0 + 1) _ hnone j u (by simpa using hu)
        have hidx' : i0 + 1 + j = i0 + (j + 1) := by omega
        rw [hidx'] at this
        exact this

/-- The texts of `querySQL` once the first loop has gone through. -/
theorem buildQuerySQL_texts {L : Lib} {s : Plugin} {texts : List String}
    (h : buildQuerySQL L s.runtime s.config.Queries [] = .ok texts) :
    List.Forall₂ (fun q t => resolvePreset L s.runtime q = .ok t) s.config.Queries texts := by
  obtain ⟨ts, hts, hall⟩ := buildQuerySQL_ok _ _ _ h
  simp at hts
  subst hts
  exact hall


/-- When the failing kinds of an executed query arise: the text is not empty, the template
went through, and either the backend returned an error or the value did not pass. -/
theorem execQuery_fail_iff {L : Lib} {s : Plugin} {interval : Int} {i : Nat} {q out e : String} :
    execQuery L s interval i q = .fail out e ↔
      ∃ query, s.config.Queries[i]? = some query ∧ q ≠ "" ∧
        L.template q s.name s.namespace_ interval = .ok out ∧
        (s.client i s.config.Address out = .error e ∨
          ∃ val, s.client i s.config.Address out = .ok val ∧ checkValue L query val = some e) := by
  constructor
  · intro h
    unfold execQuery at h
    split at h
    · cases h
    · rename_i query hq
      refine ⟨query, hq, ?_⟩
      split at h
      · cases h
      · rename_i hne
        split at h
        · cases h
        · rename_i out' ht
          split at h
          · rename_i e' hc
            cases h
            exact ⟨hne, ht, Or.inl hc⟩
          · rename_i val hc
            split at h
            · rename_i e' hv
              cases h
              exact ⟨hne, ht, Or.inr ⟨val, hc, hv⟩⟩
            · cases h
  · rintro ⟨query, hq, hne, ht, h⟩
    unfold execQuery
    rw [hq]
    simp only [hne, if_false]
    rw [ht]
    simp only
    rcases h with hc | ⟨val, hc, hv⟩
    · rw [hc]
    · rw [hc]
      simp only
      rw [hv]

/-- An entry whose iteration cannot pass makes `Check` return an error, whatever the
other entries do. -/
theorem Check_err_of_not_pass {L : Lib} {s : Plugin} {interval : Int} {i : Nat} {q : Query}
    {text : String} (hq : s.config.Queries[i]? = some q)
    (hres : resolvePreset L s.runtime q = .ok text)
    (hstop : ∀ o, execQuery L s interval i text ≠ .pass o) :
    ∃ e, (Check L s interval).err = some e := by
  unfold Check
  cases hb : buildQuerySQL L s.runtime s.config.Queries [] with
  | error e => exact ⟨e, rfl⟩
  | ok texts =>
    simp only
    obtain ⟨t, ht, hrt⟩ := forall₂_getElem? (buildQuerySQL_texts hb) i q hq
    rw [hres] at hrt
    cases hrt
    cases herr : (runQueries L s interval 0 texts []).err with
    | some e => exact ⟨e, rfl⟩
    | none =>
      obtain ⟨o, ho⟩ := runQueries_ok_all_pass texts 0 [] herr i text ht
      rw [Nat.zero_add] at ho
      exact absurd ho (hstop o)

/-- An iteration whose backend value does not pass `checkValue` is not a pass. -/
theorem execQuery_not_pass_of_checkValue {L : Lib} {s : Plugin} {interval : Int} {i : Nat}
    {q : Query} {text out e : String} {val : Value}
    (hq : s.config.Queries[i]? = some q)
    (htmpl : L.template text s.name s.namespace_ interval = .ok out)
    (hval : s.client i s.config.Address out = .ok val)
    (hchk : checkValue L q val = some e) :
    ∀ o, execQuery L s interval i text ≠ .pass o := by
  intro o
  unfold execQuery
  rw [hq]
  simp only
  split
  · simp
  · rw [htmpl]
    simp only
    rw [hval]
    simp only
    rw [hchk]
    simp

/-- The outcome of an iteration whose text is not empty, whose template goes through and
whose backend value does not pass. -/
theorem execQuery_fail_of_checkValue {L : Lib} {s : Plugin} {interval : Int} {i : Nat}
    {q : Query} {text out e : String} {val : Value}
    (hq : s.config.Queries[i]? = some q) (hne : text ≠ "")
    (htmpl : L.template text s.name s.namespace_ interval = .ok out)
    (hval : s.client i s.config.Address out = .ok val)
    (hchk : checkValue L q val = some e) :
    execQuery L s interval i text = .fail out e :=
  execQuery_fail_iff.mpr ⟨q, hq, hne, htmpl, Or.inr ⟨val, hval, hchk⟩⟩

/-- What `Check` returns when the first loop went through and entry `i` is the first
whose iteration does not pass. -/
theorem Check_stop {L : Lib} {s : Plugin} {interval : Int} {texts : List String} {i : Nat}
    {t : String} (hb : buildQuerySQL L s.runtime s.config.Queries [] = .ok texts)
    (ht : texts[i]? = some t)
    (hbefore : ∀ j u, j < i → texts[j]? = some u → ∃ o, execQuery L s interval j u = .pass o)
    (hstop : ∀ o, execQuery L s interval i t ≠ .pass o) :
    Check L s interval =
      ⟨(execQuery L s interval i t).err,
        (texts.take i).map (sentOf L s interval) ++ (execQuery L s interval i t).sent⟩ := by
  unfold Check
  rw [hb]
  simp only
  have h := @runQueries_stop L s interval i texts 0 [] t ht
    (by intro j u hj hu; rw [Nat.zero_add]; exact hbefore j u hj hu)
    (by rw [Nat.zero_add]; exact hstop)
  rw [h, Nat.zero_add]
  simp

theorem Contains_append_self (a b : String) : Contains (a ++ b) b := by
  unfold Contains
  exact ⟨a.data, [], by simp⟩

theorem Contains_append_right {x b : String} (d : String) (h : Contains x b) :
    Contains (x ++ d) b := by
  unfold Contains at *
  obtain ⟨u, v, huv⟩ := h
  exact ⟨u, v ++ d.data, by simp [← huv]⟩

/-- Every error of `checkValue` carries the Name of the query. -/
theorem checkValue_names_query {L : Lib} {q : Query} {val : Value} {e : String}
    (h : checkValue L q val = some e) : Contains e q.Name := by
  unfold checkValue at h
  split at h
  · split at h
    · cases h
      exact Contains_append_right _ (Contains_append_right _ (Contains_append_right _
        (Contains_append_right _ (Contains_append_self _ _))))
    · simp only at h
      split at h
      · cases h
        exact Contains_append_right _ (Contains_append_right _ (Contains_append_right _
          (Contains_append_right _ (Contains_append_self _ _))))
      · cases h
  · cases h
    exact Contains_append_right _ (Contains_append_right _ (Contains_append_right _
      (Contains_append_right _ (Contains_append_self _ _))))


theorem take_succ_of_getElem? {texts : List String} {i : Nat} {t : String}
    (ht : texts[i]? = some t) : texts.take (i + 1) = texts.take i ++ [t] := by
  rw [List.take_succ, ht]
  rfl

/-- The error of `checkValue` on a vector whose first sample, truncated, is out of bounds. -/
theorem checkValue_out_of_bounds {L : Lib} {q : Query} {v : SampleValue}
    {rest : List SampleValue}
    (hbound : (∃ m, q.Min = some m ∧ v.toInt L < m) ∨
      (∃ m, q.Max = some m ∧ v.toInt L > m)) :
    checkValue L q (.vector (v :: rest)) =
      some ("check failed for query " ++ q.Name ++ " using preset " ++ q.Preset ++
        ", got value " ++ toString (v.toInt L)) := by
  unfold checkValue
  simp only
  rcases hbound with ⟨m, hm, hlt⟩ | ⟨m, hm, hgt⟩
  · simp [hm, hlt]
  · simp [hm, hgt]

/-- What `Check` returns when entry `i` is the first not to pass and was executed. -/
theorem Check_fail_at {L : Lib} {s : Plugin} {interval : Int} {texts : List String} {i : Nat}
    {t out e : String} (hb : buildQuerySQL L s.runtime s.config.Queries [] = .ok texts)
    (ht : texts[i]? = some t)
    (hbefore : ∀ j u, j < i → texts[j]? = some u → ∃ o, execQuery L s interval j u = .pass o)
    (hfail : execQuery L s interval i t = .fail out e) :
    Check L s interval = ⟨some e, (texts.take (i + 1)).map (sentOf L s interval)⟩ := by
  have hstop : ∀ o, execQuery L s interval i t ≠ .pass o := by
    intro o h; rw [hfail] at h; cases h
  rw [Check_stop hb ht hbefore hstop, hfail, take_succ_of_getElem? ht]
  obtain ⟨_, _, _, htmpl, _⟩ := execQuery_fail_iff.mp hfail
  simp [Outcome.err, Outcome.sent, sentOf, htmpl]

/-- C4: when the backend answers the query of an entry with an empty vector, Check returns
an error, whatever Min and Max of the entry are; and when the entries before it passed,
that error is the "null value returned" error of the entry, the backend having been
queried for the entries up to it. -/
theorem Check_empty_vector_is_failure (L : Lib) (s : Plugin) (interval : Int) (i : Nat)
    (q : Query) (text out : String)
    (hq : s.config.Queries[i]? = some q)
    (hres : resolvePreset L s.runtime q = .ok text)
    (htmpl : L.template text s.name s.namespace_ interval = .ok out)
    (hempty : s.client i s.config.Address out = .ok (.vector [])) :
    (∃ e, (Check L s interval).err = some e) ∧
    (∀ texts, buildQuerySQL L s.runtime s.config.Queries [] = .ok texts → text ≠ "" →
      (∀ j u, j < i → texts[j]? = some u → ∃ o, execQuery L s interval j u = .pass o) →
      Check L s interval =
        ⟨some ("check failed for query " ++ q.Name ++ " using preset " ++ q.Preset ++
            ", null value returned by query: " ++ L.fmtValue (.vector [])),
          (texts.take (i + 1)).map (sentOf L s interval)⟩) := by
  have hchk : checkValue L q (.vector []) =
      some ("check failed for query " ++ q.Name ++ " using preset " ++ q.Preset ++
        ", null value returned by query: " ++ L.fmtValue (.vector [])) := rfl
  refine ⟨Check_err_of_not_pass hq hres
    (execQuery_not_pass_of_checkValue hq htmpl hempty hchk), ?_⟩
  intro texts hb hne hbefore
  obtain ⟨t, ht, hrt⟩ := forall₂_getElem? (buildQuerySQL_texts hb) i q hq
  rw [hres] at hrt
  cases hrt
  exact Check_fail_at hb ht hbefore (execQuery_fail_of_checkValue hq hne htmpl hempty hchk)

/-- Witness of C4: the single unbounded query of `noDataPlugin`. -/
theorem Check_empty_vector_is_failure_witness :
    noDataPlugin.config.Queries[0]? = some ⟨"errors", "", "up", none, none⟩ ∧
    noDataPlugin.client 0 noDataPlugin.config.Address "up" = .ok (.vector []) ∧
    ∃ e, (Check plainLib noDataPlugin 30).err = some e :=
  ⟨rfl, rfl, (Check_empty_vector_is_failure plainLib noDataPlugin 30 0
    ⟨"errors", "", "up", none, none⟩ "up" "up" rfl rfl rfl rfl).1⟩

/-- C5 (failing input): the sample 100.5 is above Max = 100, and the sample -0.5 is below
Min = 0; on both Check returns nil after its one backend query, the conversion `int(x)`
having cut the samples to 100 and to 0 before the comparisons. -/
theorem Check_fractional_sample_passes :
    (fractionalPlugin.config.Queries = [⟨"latency", "", "up", none, some 100⟩] ∧
      fractionalPlugin.client 0 fractionalPlugin.config.Address "up" =
        .ok (.vector [.finite 201 (-1)]) ∧
      finiteValue 201 (-1) > ((100 : Int) : ℚ) ∧
      (SampleValue.finite 201 (-1)).toInt plainLib = 100 ∧
      Check plainLib fractionalPlugin 30 = ⟨none, ["up"]⟩) ∧
    (negativeFractionPlugin.config.Queries = [⟨"success", "", "up", some 0, none⟩] ∧
      negativeFractionPlugin.client 0 negativeFractionPlugin.config.Address "up" =
        .ok (.vector [.finite (-1) (-1)]) ∧
      finiteValue (-1) (-1) < ((0 : Int) : ℚ) ∧
      (SampleValue.finite (-1) (-1)).toInt plainLib = 0 ∧
      Check plainLib negativeFractionPlugin 30 = ⟨none, ["up"]⟩) :=
  ⟨⟨rfl, rfl, by norm_num [finiteValue], by decide, by decide⟩,
    ⟨rfl, rfl, by norm_num [finiteValue], by decide, by decide⟩⟩


/-- When `checkValue` lets a value through: a vector that is not empty and whose first
sample, converted, respects the bounds that are set. -/
theorem checkValue_none_iff {L : Lib} {q : Query} {val : Value} :
    checkValue L q val = none ↔
      ∃ v rest, val = .vector (v :: rest) ∧ (∀ m, q.Min = some m → m ≤ v.toInt L) ∧
        (∀ m, q.Max = some m → v.toInt L ≤ m) := by
  cases val with
  | other kind => simp [checkValue]
  | vector samples =>
    cases samples with
    | nil => simp [checkValue]
    | cons v rest =>
      simp only [checkValue, Value.vector.injEq, List.cons.injEq]
      constructor
      · intro h
        refine ⟨v, rest, ⟨rfl, rfl⟩, ?_, ?_⟩
        · intro m hm
          by_contra hlt
          rw [hm] at h
          simp [Int.not_le.mp hlt] at h
        · intro m hm
          by_contra hgt
          rw [hm] at h
          simp [Int.not_le.mp hgt] at h
      · rintro ⟨v', rest', ⟨rfl, rfl⟩, hmin, hmax⟩
        have h1 : (match q.Min with
            | some m => decide (v.toInt L < m)
            | none => false) = false := by
          cases hq : q.Min with
          | none => rfl
          | some m => simpa using hmin m hq
        have h2 : (match q.Max with
            | some m => decide (v.toInt L > m)
            | none => false) = false := by
          cases hq : q.Max with
          | none => rfl
          | some m => simpa using hmax m hq
        rw [h1, h2]
        rfl

/-- When an iteration passes: the text is not empty, the template goes through, and the
backend value is let through by `checkValue`. -/
theorem execQuery_pass_iff {L : Lib} {s : Plugin} {interval : Int} {i : Nat} {q out : String} :
    execQuery L s interval i q = .pass out ↔
      ∃ query, s.config.Queries[i]? = some query ∧ q ≠ "" ∧
        L.template q s.name s.namespace_ interval = .ok out ∧
        ∃ val, s.client i s.config.Address out = .ok val ∧ checkValue L query val = none := by
  constructor
  · intro h
    unfold execQuery at h
    split at h
    · cases h
    · rename_i query hq
      refine ⟨query, hq, ?_⟩
      split at h
      · cases h
      · rename_i hne
        split at h
        · cases h
        · rename_i out' ht
          split at h
          · cases h
          · rename_i val hc
            split at h
            · cases h
            · rename_i hv
              cases h
              exact ⟨hne, ht, val, hc, hv⟩
  · rintro ⟨query, hq, hne, ht, val, hc, hv⟩
    unfold execQuery
    rw [hq]
    simp only [hne, if_false]
    rw [ht]
    simp only
    rw [hc]
    simp only
    rw [hv]

/-- C6: when the first loop went through, every entry before entry i passed (text not
empty, template output sent, answer a vector that is not empty and whose first sample,
as Check converts it, respects the bounds set) and the execution of entry i fails in one
of the four kinds (backend error, value that is no vector, empty vector, first sample as
Check converts it below Min or above Max), Check returns an error and the backend has
been queried i + 1 times, for the entries 0..i in list order; and Check returns nil only
if every entry passed. -/
theorem Check_short_circuit (L : Lib) (s : Plugin) (interval : Int) :
    (∀ (texts : List String) (i : Nat) (q : Query) (t out : String),
      buildQuerySQL L s.runtime s.config.Queries [] = .ok texts →
      s.config.Queries[i]? = some q → texts[i]? = some t →
      (∀ j qj u, j < i → s.config.Queries[j]? = some qj → texts[j]? = some u →
        u ≠ "" ∧ ∃ o v rest, L.template u s.name s.namespace_ interval = .ok o ∧
          s.client j s.config.Address o = .ok (.vector (v :: rest)) ∧
          (∀ m, qj.Min = some m → m ≤ v.toInt L) ∧ (∀ m, qj.Max = some m → v.toInt L ≤ m)) →
      t ≠ "" → L.template t s.name s.namespace_ interval = .ok out →
      ((∃ e, s.client i s.config.Address out = .error e) ∨
        (∃ kind, s.client i s.config.Address out = .ok (.other kind)) ∨
        s.client i s.config.Address out = .ok (.vector []) ∨
        (∃ v rest, s.client i s.config.Address out = .ok (.vector (v :: rest)) ∧
          ((∃ m, q.Min = some m ∧ v.toInt L < m) ∨ (∃ m, q.Max = some m ∧ v.toInt L > m)))) →
      (∃ e, (Check L s interval).err = some e) ∧
      (Check L s interval).queried = (texts.take (i + 1)).map (sentOf L s interval) ∧
      (Check L s interval).queried.length = i + 1 ∧
      (Check L s interval).queried[i]? = some out) ∧
    ((Check L s interval).err = none →
      ∃ texts, buildQuerySQL L s.runtime s.config.Queries [] = .ok texts ∧
        texts.length = s.config.Queries.length ∧
        (Check L s interval).queried = texts.map (sentOf L s interval) ∧
        ∀ j qj u, s.config.Queries[j]? = some qj → texts[j]? = some u →
          u ≠ "" ∧ ∃ o v rest, L.template u s.name s.namespace_ interval = .ok o ∧
            s.client j s.config.Address o = .ok (.vector (v :: rest)) ∧
            (∀ m, qj.Min = some m → m ≤ v.toInt L) ∧
            (∀ m, qj.Max = some m → v.toInt L ≤ m)) := by
  constructor
  · intro texts i q t out hb hq ht hbefore hne htmpl hkind
    have hpass : ∀ j u, j < i → texts[j]? = some u →
        ∃ o, execQuery L s interval j u = .pass o := by
      intro j u hj hu
      obtain ⟨qj, hqj, _⟩ := forall₂_getElem?_right (buildQuerySQL_texts hb) j u hu
      obtain ⟨_, o, v, rest, ho, hc, hmin, hmax⟩ := hbefore j qj u hj hqj hu
      exact ⟨o, execQuery_pass_iff.mpr ⟨qj, hqj, (hbefore j qj u hj hqj hu).1, ho, _, hc,
        checkValue_none_iff.mpr ⟨v, rest, rfl, hmin, hmax⟩⟩⟩
    have hfail : ∃ e, execQuery L s interval i t = .fail out e := by
      rcases hkind with ⟨e, hc⟩ | ⟨kind, hc⟩ | hc | ⟨v, rest, hc, hbound⟩
      · exact ⟨e, execQuery_fail_iff.mpr ⟨q, hq, hne, htmpl, Or.inl hc⟩⟩
      · exact ⟨_, execQuery_fail_of_checkValue hq hne htmpl hc rfl⟩
      · exact ⟨_, execQuery_fail_of_checkValue hq hne htmpl hc rfl⟩
      · exact ⟨_, execQuery_fail_of_checkValue hq hne htmpl hc
          (@checkValue_out_of_bounds L q v rest hbound)⟩
    obtain ⟨e, he⟩ := hfail
    rw [Check_fail_at hb ht hpass he]
    have hlt : i < texts.length := by
      by_contra hge
      rw [List.getElem?_eq_none (Nat.le_of_not_lt hge)] at ht
      cases ht
    refine ⟨⟨e, rfl⟩, rfl, ?_, ?_⟩
    · simp only [List.length_map, List.length_take]
      omega
    · simp only
      rw [List.getElem?_map, List.getElem?_take_of_lt (Nat.lt_succ_self i), ht]
      simp [sentOf, htmpl]
  · intro hnone
    unfold Check at hnone ⊢
    cases hb : buildQuerySQL L s.runtime s.config.Queries [] with
    | error e => rw [hb] at hnone; cases hnone
    | ok texts =>
      rw [hb] at hnone
      simp only at hnone ⊢
      have hall : ∀ j u, texts[j]? = some u →
          ∃ o, execQuery L s interval (0 + j) u = .pass o :=
        runQueries_ok_all_pass texts 0 [] hnone
      refine ⟨texts, rfl, (buildQuerySQL_texts hb).length_eq.symm, ?_, ?_⟩
      · rw [runQueries_all_pass texts 0 [] hall]
        simp
      · intro j qj u hqj hu
        obtain ⟨o, ho⟩ := hall j u hu
        rw [Nat.zero_add] at ho
        obtain ⟨query, hquery, hne, htmpl, val, hc, hv⟩ := execQuery_pass_iff.mp ho
        rw [hqj] at hquery
        cases hquery
        obtain ⟨v, rest, hval, hmin, hmax⟩ := checkValue_none_iff.mp hv
        subst hval
        exact ⟨hne, o, v, rest, htmpl, hc, hmin, hmax⟩

/-- Witness of C6: in `threeQueryPlugin` the first entry passes and the second gets an
empty vector, in `scalarPlugin` the second gets a value that is no vector: Check returns
an error after two backend queries, the third entry of `threeQueryPlugin` never being
sent; and in `aboveMaxPlugin` the one sample 101 is above Max = 100. -/
theorem Check_short_circuit_witness :
    ((∃ e, (Check plainLib threeQueryPlugin 30).err = some e) ∧
      (Check plainLib threeQueryPlugin 30).queried =
        (["up", "rq_errors", "rq_time"].take (1 + 1)).map (sentOf plainLib threeQueryPlugin 30) ∧
      (Check plainLib threeQueryPlugin 30).queried.length = 1 + 1 ∧
      (Check plainLib threeQueryPlugin 30).queried[1]? = some "rq_errors") ∧
    ((∃ e, (Check plainLib scalarPlugin 30).err = some e) ∧
      (Check plainLib scalarPlugin 30).queried =
        (["up", "rq_errors"].take (1 + 1)).map (sentOf plainLib scalarPlugin 30) ∧
      (Check plainLib scalarPlugin 30).queried.length = 1 + 1 ∧
      (Check plainLib scalarPlugin 30).queried[1]? = some "rq_errors") ∧
    ((∃ e, (Check plainLib aboveMaxPlugin 30).err = some e) ∧
      (Check plainLib aboveMaxPlugin 30).queried =
        (["up"].take (0 + 1)).map (sentOf plainLib aboveMaxPlugin 30) ∧
      (Check plainLib aboveMaxPlugin 30).queried.length = 0 + 1 ∧
      (Check plainLib aboveMaxPlugin 30).queried[0]? = some "up") :=
  ⟨(Check_short_circuit plainLib threeQueryPlugin 30).1 ["up", "rq_errors", "rq_time"] 1
      ⟨"errors", "", "rq_errors", none, none⟩ "rq_errors" "rq_errors" rfl rfl rfl
      (by
        intro j qj u hj hqj hu
        have hj0 : j = 0 := by omega
        subst hj0
        simp [threeQueryPlugin] at hqj
        simp at hu
        subst hqj
        subst hu
        exact ⟨by decide, "up", .finite 5 0, [], rfl, rfl, by decide, by decide⟩)
      (by decide) rfl (Or.inr (Or.inr (Or.inl rfl))),
    (Check_short_circuit plainLib scalarPlugin 30).1 ["up", "rq_errors"] 1
      ⟨"errors", "", "rq_errors", none, none⟩ "rq_errors" "rq_errors" rfl rfl rfl
      (by
        intro j qj u hj hqj hu
        have hj0 : j = 0 := by omega
        subst hj0
        simp [scalarPlugin] at hqj
        simp at hu
        subst hqj
        subst hu
        exact ⟨by decide, "up", .finite 5 0, [], rfl, rfl, by decide, by decide⟩)
      (by decide) rfl (Or.inr (Or.inl ⟨"scalar", rfl⟩)),
    (Check_short_circuit plainLib aboveMaxPlugin 30).1 ["up"] 0
      ⟨"latency", "", "up", none, some 100⟩ "up" "up" rfl rfl rfl
      (by intro j qj u hj; omega)
      (by decide) rfl
      (Or.inr (Or.inr (Or.inr ⟨.finite 101 0, [], rfl, Or.inr ⟨100, rfl, by decide⟩⟩)))⟩

/-- Counterexample to C7 as stated: in `presetLastPlugin` entry 0 is the first entry that
fails a step (its execution returns an empty vector), the unknown preset is on entry 1;
Check returns the error of entry 1 and entry 0 is never sent to the backend. -/
theorem Check_list_order_counterexample :
    resolvePreset plainLib presetLastPlugin.runtime ⟨"errors", "", "up", none, none⟩ = .ok "up" ∧
    execQuery plainLib presetLastPlugin 30 0 "up" =
      .fail "up" "check failed for query errors using preset , null value returned by query: " ∧
    Check plainLib presetLastPlugin 30 =
      ⟨some "preset query no-such-preset, does not exist", []⟩ :=
  ⟨rfl, by decide, by decide⟩

/-- C7 (amended): Check first resolves the presets of all entries in list order, and an
unknown preset on any entry returns the error of the first such entry before anything is
sent to the backend. Only then the entries are run one at a time in list order (emptiness
test, template, execution, bounds): if entry i is the first that does not pass, Check
returns the error of entry i and the backend has been queried for the entries before i
(and for entry i when it got as far as its execution). -/
theorem Check_presets_then_list_order (L : Lib) (s : Plugin) (interval : Int) :
    (∀ (i : Nat) (q : Query) (e : String),
      s.config.Queries[i]? = some q →
      (∀ j q', j < i → s.config.Queries[j]? = some q' →
        ∃ t, resolvePreset L s.runtime q' = .ok t) →
      resolvePreset L s.runtime q = .error e →
      Check L s interval = ⟨some e, []⟩) ∧
    (∀ (texts : List String) (i : Nat) (t : String),
      buildQuerySQL L s.runtime s.config.Queries [] = .ok texts →
      texts[i]? = some t →
      (∀ j u, j < i → texts[j]? = some u → ∃ o, execQuery L s interval j u = .pass o) →
      (∀ o, execQuery L s interval i t ≠ .pass o) →
      (Check L s interval).err = (execQuery L s interval i t).err ∧
      (Check L s interval).queried =
        (texts.take i).map (sentOf L s interval) ++ (execQuery L s interval i t).sent) := by
  constructor
  · intro i q e hq hbefore herr
    unfold Check
    rw [buildQuerySQL_error _ [] i q e hq hbefore herr]
  · intro texts i t hb ht hbefore hstop
    rw [Check_stop hb ht hbefore hstop]
    exact ⟨rfl, rfl⟩

/-- Witness of C7 (amended): the unknown preset of entry 1 of `presetLastPlugin`; and
`threeQueryPlugin`, whose presets resolve and whose entry 1 is the first not to pass. -/
theorem Check_presets_then_list_order_witness :
    ((Check plainLib threeQueryPlugin 30).err =
        (execQuery plainLib threeQueryPlugin 30 1 "rq_errors").err ∧
      (Check plainLib threeQueryPlugin 30).queried =
        (["up", "rq_errors", "rq_time"].take 1).map (sentOf plainLib threeQueryPlugin 30) ++
          (execQuery plainLib threeQueryPlugin 30 1 "rq_errors").sent) ∧
    presetLastPlugin.config.Queries[1]? = some ⟨"latency", "no-such-preset", "", none, none⟩ ∧
    Check plainLib presetLastPlugin 30 =
      ⟨some "preset query no-such-preset, does not exist", []⟩ :=
  ⟨(Check_presets_then_list_order plainLib threeQueryPlugin 30).2
      ["up", "rq_errors", "rq_time"] 1 "rq_errors" rfl rfl
      (by
        intro j u hj hu
        have hj0 : j = 0 := by omega
        subst hj0
        simp at hu
        subst hu
        exact ⟨"up", by decide⟩)
      (by
        intro o h
        have hfail : execQuery plainLib threeQueryPlugin 30 1 "rq_errors" =
            .fail "rq_errors"
              "check failed for query errors using preset , null value returned by query: " := by
          decide
        rw [hfail] at h
        cases h),
    rfl, (Check_presets_then_list_order plainLib presetLastPlugin 30).1 1
    ⟨"latency", "no-such-preset", "", none, none⟩ "preset query no-such-preset, does not exist"
    rfl
    (by
      intro j q' hj hq'
      have hj0 : j = 0 := by omega
      subst hj0
      simp [presetLastPlugin] at hq'
      subst hq'
      exact ⟨"up", rfl⟩)
    rfl⟩

/-- Counterexample to C8 as stated: the error for an unknown preset carries the Preset of
the entry, not its Name. -/
theorem Check_error_name_counterexample :
    unknownPresetPlugin.config.Queries = [⟨"latency", "no-such-preset", "", none, none⟩] ∧
    (Check plainLib unknownPresetPlugin 30).err =
      some "preset query no-such-preset, does not exist" ∧
    ¬ Contains "preset query no-such-preset, does not exist" "latency" := by
  decide

/-- C8 (amended): the error of Check contains the Name of the offending entry when its
resolved text is empty and when its backend value does not pass (empty vector, value out
of bounds, value that is no vector); for an unknown preset the error contains the Preset
of the entry; the error of a malformed template is returned as the template engine made
it. -/
theorem Check_error_identifies_query (L : Lib) (s : Plugin) (interval : Int) :
    (∀ (texts : List String) (i : Nat) (q : Query) (t : String),
      buildQuerySQL L s.runtime s.config.Queries [] = .ok texts →
      s.config.Queries[i]? = some q → texts[i]? = some t →
      (∀ j u, j < i → texts[j]? = some u → ∃ o, execQuery L s interval j u = .pass o) →
      (t = "" ∨ ∃ out val e', L.template t s.name s.namespace_ interval = .ok out ∧
        s.client i s.config.Address out = .ok val ∧ checkValue L q val = some e') →
      ∃ e, (Check L s interval).err = some e ∧ Contains e q.Name) ∧
    (∀ (i : Nat) (q : Query) (e : String),
      s.config.Queries[i]? = some q →
      (∀ j q', j < i → s.config.Queries[j]? = some q' →
        ∃ t, resolvePreset L s.runtime q' = .ok t) →
      resolvePreset L s.runtime q = .error e →
      (Check L s interval).err = some ("preset query " ++ q.Preset ++ ", does not exist") ∧
      Contains ("preset query " ++ q.Preset ++ ", does not exist") q.Preset) ∧
    (∀ (texts : List String) (i : Nat) (t e : String),
      buildQuerySQL L s.runtime s.config.Queries [] = .ok texts →
      texts[i]? = some t → t ≠ "" →
      (∀ j u, j < i → texts[j]? = some u → ∃ o, execQuery L s interval j u = .pass o) →
      L.template t s.name s.namespace_ interval = .error e →
      (Check L s interval).err = some e) := by
  refine ⟨?_, ?_, ?_⟩
  · intro texts i q t hb hq ht hbefore hkind
    rcases hkind with hempty | ⟨out, val, e', htmpl, hval, hchk⟩
    · have hout : execQuery L s interval i t =
          .abort ("query " ++ q.Name ++ " is empty, please specify a valid Prometheus query") := by
        unfold execQuery
        rw [hq]
        simp [hempty]
      have hstop : ∀ o, execQuery L s interval i t ≠ .pass o := by
        intro o h; rw [hout] at h; cases h
      rw [Check_stop hb ht hbefore hstop, hout]
      exact ⟨_, rfl, Contains_append_right _ (Contains_append_self _ _)⟩
    · by_cases hne : t = ""
      · have hout : execQuery L s interval i t =
            .abort ("query " ++ q.Name ++ " is empty, please specify a valid Prometheus query") := by
          unfold execQuery
          rw [hq]
          simp [hne]
        have hstop : ∀ o, execQuery L s interval i t ≠ .pass o := by
          intro o h; rw [hout] at h; cases h
        rw [Check_stop hb ht hbefore hstop, hout]
        exact ⟨_, rfl, Contains_append_right _ (Contains_append_self _ _)⟩
      · rw [Check_fail_at hb ht hbefore (execQuery_fail_of_checkValue hq hne htmpl hval hchk)]
        exact ⟨e', rfl, checkValue_names_query hchk⟩
  · intro i q e hq hbefore herr
    have he : e = "preset query " ++ q.Preset ++ ", does not exist" := by
      unfold resolvePreset at herr
      split at herr
      · split at herr
        · cases herr
        · split at herr
          · cases herr
          · cases herr; rfl
      · cases herr
    unfold Check
    rw [buildQuerySQL_error _ [] i q e hq hbefore herr, he]
    exact ⟨rfl, Contains_append_right _ (Contains_append_self _ _)⟩
  · intro texts i t e hb ht hne hbefore htmpl
    obtain ⟨q, hq, _⟩ := forall₂_getElem?_right (buildQuerySQL_texts hb) i t ht
    have hout : execQuery L s interval i t = .abort e := by
      unfold execQuery
      rw [hq]
      simp only [hne, if_false]
      rw [htmpl]
    have hstop : ∀ o, execQuery L s interval i t ≠ .pass o := by
      intro o h; rw [hout] at h; cases h
    rw [Check_stop hb ht hbefore hstop, hout]
    rfl

/-- Witness of C8 (amended): the empty vector of `noDataPlugin` is reported under the Name
"errors", the unknown preset of `unknownPresetPlugin` under its Preset. -/
theorem Check_error_identifies_query_witness :
    ((Check plainLib unknownPresetPlugin 30).err =
        some ("preset query " ++ "no-such-preset" ++ ", does not exist") ∧
      Contains ("preset query " ++ "no-such-preset" ++ ", does not exist") "no-such-preset") ∧
    ∃ e, (Check plainLib noDataPlugin 30).err = some e ∧ Contains e "errors" :=
  ⟨(Check_error_identifies_query plainLib unknownPresetPlugin 30).2.1 0
      ⟨"latency", "no-such-preset", "", none, none⟩
      "preset query no-such-preset, does not exist" rfl (by intro j q' hj; omega) rfl,
  (Check_error_identifies_query plainLib noDataPlugin 30).1 ["up"] 0
    ⟨"errors", "", "up", none, none⟩ "up" rfl rfl rfl
    (by intro j u hj; omega)
    (Or.inr ⟨"up", .vector [],
      "check failed for query errors using preset , null value returned by query: ",
      rfl, rfl, rfl⟩)⟩


/-- Two texts cut at their first dash agree part by part. -/
theorem split_at_first_dash :
    ∀ (a c b d : List Char), '-' ∉ a → '-' ∉ c → a ++ '-' :: b = c ++ '-' :: d →
      a = c ∧ b = d := by
  intro a
  induction a with
  | nil =>
    intro c b d _ hc h
    cases c with
    | nil => simp at h; exact ⟨rfl, h⟩
    | cons x c' =>
      simp at h
      exact absurd h.1 (by intro hx; apply hc; rw [← hx]; simp)
  | cons y a' ih =>
    intro c b d ha hc h
    cases c with
    | nil =>
      simp at h
      exact absurd h.1 (by intro hy; apply ha; rw [hy]; simp)
    | cons x c' =>
      simp at h
      obtain ⟨hyx, hrest⟩ := h
      have ha' : '-' ∉ a' := fun hm => ha (List.mem_cons_of_mem _ hm)
      have hc' : '-' ∉ c' := fun hm => hc (List.mem_cons_of_mem _ hm)
      obtain ⟨h1, h2⟩ := ih c' b d ha' hc' hrest
      exact ⟨by rw [hyx, h1], h2⟩

/-- For a runtime name without a dash, the key of the preset switch is a known key exactly
when runtime and preset are its two parts. -/
theorem presetKey_eq_iff {runtime : String} {q : Query} (r p : String)
    (hdash : '-' ∉ runtime.data) (hr : '-' ∉ r.data) :
    presetKey runtime q = r ++ "-" ++ p ↔ runtime = r ∧ q.Preset = p := by
  unfold presetKey
  constructor
  · intro h
    have hd := congrArg String.data h
    simp only [String.data_append] at hd
    have hd' : runtime.data ++ '-' :: q.Preset.data = r.data ++ '-' :: p.data := by
      simpa using hd
    obtain ⟨h1, h2⟩ := split_at_first_dash _ _ _ _ hdash hr hd'
    exact ⟨String.ext h1, String.ext h2⟩
  · rintro ⟨rfl, rfl⟩
    rfl

/-- Counterexample to C10 as stated: the pair ("kubernetes-envoy", "request-success") is
none of the two pairs of the claim, yet its entry resolves to the request-success template
and Check queries the backend with it and returns nil. -/
theorem preset_pair_counterexample :
    dashedRuntimePlugin.runtime = "kubernetes-envoy" ∧
    dashedRuntimePlugin.config.Queries = [⟨"success", "request-success", "", some 1, none⟩] ∧
    dashedRuntimePlugin.runtime ≠ "kubernetes" ∧
    resolvePreset plainLib dashedRuntimePlugin.runtime
      ⟨"success", "request-success", "", some 1, none⟩ =
        .ok plainLib.KubernetesEnvoyRequestSuccess ∧
    Check plainLib dashedRuntimePlugin 30 = ⟨none, ["envoy_cluster_upstream_rq_success"]⟩ :=
  ⟨rfl, rfl, by decide, rfl, by decide⟩

/-- C10 (amended): the preset of an entry is resolved on the text runtime-preset. With an
empty preset the custom text of the entry is used as it is. With a non-empty preset the
custom text plays no part: the text is the request-success template when runtime-preset is
"kubernetes-envoy-request-success", the request-duration template when it is
"kubernetes-envoy-request-duration", and for every other runtime-preset text Check returns
an error without querying the backend. For a runtime name without a dash the text
runtime-preset is one of the two keys exactly when runtime = "kubernetes" and preset is
"envoy-request-success", respectively "envoy-request-duration". -/
theorem preset_resolution_by_key (L : Lib) (s : Plugin) (interval : Int) (i : Nat)
    (q : Query) (hq : s.config.Queries[i]? = some q) :
    (q.Preset = "" → resolvePreset L s.runtime q = .ok q.Query) ∧
    (q.Preset ≠ "" →
      (presetKey s.runtime q = "kubernetes-envoy-request-success" →
        resolvePreset L s.runtime q = .ok L.KubernetesEnvoyRequestSuccess) ∧
      (presetKey s.runtime q = "kubernetes-envoy-request-duration" →
        resolvePreset L s.runtime q = .ok L.KubernetesEnvoyRequestDuration) ∧
      (presetKey s.runtime q ≠ "kubernetes-envoy-request-success" →
        presetKey s.runtime q ≠ "kubernetes-envoy-request-duration" →
        ∃ e, Check L s interval = ⟨some e, []⟩) ∧
      (∀ q' : Query, q'.Preset = q.Preset →
        resolvePreset L s.runtime q' = resolvePreset L s.runtime q)) ∧
    ('-' ∉ s.runtime.data →
      (presetKey s.runtime q = "kubernetes-envoy-request-success" ↔
        s.runtime = "kubernetes" ∧ q.Preset = "envoy-request-success") ∧
      (presetKey s.runtime q = "kubernetes-envoy-request-duration" ↔
        s.runtime = "kubernetes" ∧ q.Preset = "envoy-request-duration")) ∧
    (∀ texts t, buildQuerySQL L s.runtime s.config.Queries [] = .ok texts →
      texts[i]? = some t → resolvePreset L s.runtime q = .ok t) := by
  refine ⟨?_, ?_, ?_, ?_⟩
  · intro hp
    simp [resolvePreset, hp]
  · intro hp
    refine ⟨?_, ?_, ?_, ?_⟩
    · intro hk
      simp [resolvePreset, hp, hk]
    · intro hk
      have hk' : presetKey s.runtime q ≠ "kubernetes-envoy-request-success" := by
        rw [hk]; decide
      simp [resolvePreset, hp, hk, hk']
    · intro hk1 hk2
      have herr : resolvePreset L s.runtime q =
          .error ("preset query " ++ q.Preset ++ ", does not exist") := by
        simp [resolvePreset, hp, hk1, hk2]
      obtain ⟨e', he'⟩ := @buildQuerySQL_any_error L s.runtime
        s.config.Queries [] i q _ hq herr
      exact ⟨e', by unfold Check; rw [he']⟩
    · intro q' hq'
      have hp' : q'.Preset ≠ "" := by rw [hq']; exact hp
      simp [resolvePreset, presetKey, hp, hp', hq']
  · intro hdash
    exact ⟨presetKey_eq_iff "kubernetes" "envoy-request-success" hdash (by decide),
      presetKey_eq_iff "kubernetes" "envoy-request-duration" hdash (by decide)⟩
  · intro texts t hb ht
    obtain ⟨t', ht', hrt⟩ := forall₂_getElem? (buildQuerySQL_texts hb) i q hq
    rw [ht] at ht'
    cases ht'
    exact hrt

/-- Witness of C10 (amended): the request-duration preset under the runtime "kubernetes",
a name without a dash, next to a custom text. -/
theorem preset_resolution_by_key_witness :
    (presetKey presetPlugin.runtime
        ⟨"latency", "envoy-request-duration", "ignored_text", none, some 200⟩ =
          "kubernetes-envoy-request-duration" ↔
      presetPlugin.runtime = "kubernetes" ∧
        (⟨"latency", "envoy-request-duration", "ignored_text", none, some 200⟩ : Query).Preset =
          "envoy-request-duration") ∧
    presetPlugin.config.Queries[0]? =
      some ⟨"latency", "envoy-request-duration", "ignored_text", none, some 200⟩ ∧
    resolvePreset plainLib presetPlugin.runtime
      ⟨"latency", "envoy-request-duration", "ignored_text", none, some 200⟩ =
        .ok plainLib.KubernetesEnvoyRequestDuration :=
  ⟨((preset_resolution_by_key plainLib presetPlugin 30 0
    ⟨"latency", "envoy-request-duration", "ignored_text", none, some 200⟩ rfl).2.2.1
      (by decide)).2,
    rfl, ((preset_resolution_by_key plainLib presetPlugin 30 0
    ⟨"latency", "envoy-request-duration", "ignored_text", none, some 200⟩ rfl).2.1
      (by decide)).2.1 (by decide)⟩

end Prometheus

namespace Canary

theorem retryLoop_all_fail {monitor : Nat → Int → Option String} {interval : Int}
    (hfail : ∀ k, monitor k interval ≠ none) :
    ∀ (attempts k : Nat), retryLoop monitor interval attempts k = (false, k + attempts) := by
  intro attempts
  induction attempts with
  | zero => intro k; rfl
  | succ n ih =>
    intro k
    unfold retryLoop
    cases hm : monitor k interval with
    | none => exact absurd hm (hfail k)
    | some e =>
      simp only
      rw [ih (k + 1)]
      congr 1
      omega

theorem retryLoop_success {monitor : Nat → Int → Option String} {interval : Int} :
    ∀ (attempts k : Nat), (∃ j, j < attempts ∧ monitor (k + j) interval = none) →
      ∃ m, retryLoop monitor interval attempts k = (true, m) ∧ k < m ∧ m ≤ k + attempts ∧
        monitor (m - 1) interval = none ∧
        ∀ j, k ≤ j → j < m - 1 → monitor j interval ≠ none := by
  intro attempts
  induction attempts with
  | zero => rintro k ⟨j, hj, _⟩; omega
  | succ n ih =>
    rintro k ⟨j, hj, hok⟩
    unfold retryLoop
    cases hm : monitor k interval with
    | none =>
      refine ⟨k + 1, rfl, by omega, by omega, by simpa using hm, ?_⟩
      intro j hkj hjk
      omega
    | some e =>
      simp only
      have hj0 : j ≠ 0 := by
        rintro rfl
        rw [Nat.add_zero, hm] at hok
        cases hok
      obtain ⟨m, hm', hlt, hle, hlast, hfirst⟩ := ih (k + 1) ⟨j - 1, by omega, by
        have : k + 1 + (j - 1) = k + j := by omega
        rw [this]; exact hok⟩
      refine ⟨m, hm', by omega, by omega, hlast, ?_⟩
      intro i hki him
      by_cases hik : i = k
      · rw [hik, hm]; simp
      · exact hfirst i (by omega) him

/-- C1: on a started plugin whose error threshold is n ≥ 1, with a monitor whose Check
returns an error on every call, Execute calls Check n times and returns status fail,
traffic 0 and no error. -/
theorem Execute_fail_after_threshold (monitor : Nat → Int → Option String) (p : Plugin)
    (n : Nat) (hn : 1 ≤ n) (hthreshold : p.config.ErrorThreshold = (n : Int))
    (hstarted : p.currentTraffic ≠ -1)
    (hfail : ∀ k interval, monitor k interval ≠ none) :
    (Execute monitor p).checks = n ∧
    (Execute monitor p).status = StrategyStatus.fail ∧
    (Execute monitor p).traffic = 0 ∧
    (Execute monitor p).err = none := by
  unfold Execute
  rw [if_neg hstarted, hthreshold, Int.toNat_ofNat,
    retryLoop_all_fail (fun k => hfail k p.config.Interval)]
  simp

/-- Witness of C1: `TestReturnsErrorWhenChecksFail`, threshold 5 and traffic 10. -/
theorem Execute_fail_after_threshold_witness :
    Configure testDeps canaryStrategy = .ok ⟨30000000, 30000000, 10, 10, 90, 5⟩ ∧
    (Execute failingMonitor ⟨⟨30000000, 30000000, 10, 10, 90, 5⟩, 10⟩).checks = 5 ∧
    (Execute failingMonitor ⟨⟨30000000, 30000000, 10, 10, 90, 5⟩, 10⟩).status =
      StrategyStatus.fail ∧
    (Execute failingMonitor ⟨⟨30000000, 30000000, 10, 10, 90, 5⟩, 10⟩).traffic = 0 ∧
    (Execute failingMonitor ⟨⟨30000000, 30000000, 10, 10, 90, 5⟩, 10⟩).err = none :=
  ⟨rfl, Execute_fail_after_threshold failingMonitor ⟨⟨30000000, 30000000, 10, 10, 90, 5⟩, 10⟩ 5
    (by decide) rfl (by decide) (by intro k interval; simp [failingMonitor])⟩

/-- C2: on a started plugin with currentTraffic = c, when a Check of the retry loop
succeeds, Execute returns (complete, 100, nil) and pins currentTraffic at 100 if
c + traffic_step ≥ max_traffic, and otherwise returns (success, c + traffic_step, nil)
with currentTraffic = c + traffic_step; the checks made are the failed ones and the
first that succeeds. -/
theorem Execute_advance (monitor : Nat → Int → Option String) (p : Plugin) (c : Int)
    (hc : p.currentTraffic = c) (hstarted : c ≠ -1)
    (hok : ∃ k, k < p.config.ErrorThreshold.toNat ∧ monitor k p.config.Interval = none) :
    (c + p.config.TrafficStep ≥ p.config.MaxTraffic →
      (Execute monitor p).status = StrategyStatus.complete ∧
      (Execute monitor p).traffic = 100 ∧
      (Execute monitor p).err = none ∧
      (Execute monitor p).plugin.currentTraffic = 100) ∧
    (c + p.config.TrafficStep < p.config.MaxTraffic →
      (Execute monitor p).status = StrategyStatus.success ∧
      (Execute monitor p).traffic = c + p.config.TrafficStep ∧
      (Execute monitor p).err = none ∧
      (Execute monitor p).plugin.currentTraffic = c + p.config.TrafficStep) ∧
    (1 ≤ (Execute monitor p).checks ∧
      monitor ((Execute monitor p).checks - 1) p.config.Interval = none ∧
      ∀ j, j < (Execute monitor p).checks - 1 → monitor j p.config.Interval ≠ none) := by
  obtain ⟨k, hk, hmk⟩ := hok
  obtain ⟨m, hm, hlt, _, hlast, hfirst⟩ :=
    @retryLoop_success monitor p.config.Interval p.config.ErrorThreshold.toNat 0
      ⟨k, hk, by rw [Nat.zero_add]; exact hmk⟩
  have hne : p.currentTraffic ≠ -1 := by rw [hc]; exact hstarted
  subst hc
  unfold Execute
  rw [if_neg hne, hm]
  simp only
  refine ⟨?_, ?_, ?_⟩
  · intro hge
    rw [if_pos hge]
    exact ⟨rfl, rfl, rfl, rfl⟩
  · intro hlt'
    rw [if_neg (by omega)]
    exact ⟨rfl, rfl, rfl, rfl⟩
  · have hm1 : 1 ≤ m := hlt
    split
    · exact ⟨hm1, hlast, fun j hj => hfirst j (Nat.zero_le _) hj⟩
    · exact ⟨hm1, hlast, fun j hj => hfirst j (Nat.zero_le _) hj⟩

/-- Witness of C2: `TestExecuteReturnsIncrementsTrafficSubsequentRuns` (10 + 10 < 90 gives
success, 20) and `TestExecuteReturnsCompleteWhenAllChecksComplete` (80 + 10 ≥ 90 gives
complete, 100). -/
theorem Execute_advance_witness :
    Configure testDeps canaryStrategy = .ok ⟨30000000, 30000000, 10, 10, 90, 5⟩ ∧
    ((Execute passingMonitor ⟨⟨30000000, 30000000, 10, 10, 90, 5⟩, 10⟩).status =
        StrategyStatus.success ∧
      (Execute passingMonitor ⟨⟨30000000, 30000000, 10, 10, 90, 5⟩, 10⟩).traffic = 10 + 10 ∧
      (Execute passingMonitor ⟨⟨30000000, 30000000, 10, 10, 90, 5⟩, 10⟩).err = none ∧
      (Execute passingMonitor ⟨⟨30000000, 30000000, 10, 10, 90, 5⟩, 10⟩).plugin.currentTraffic =
        10 + 10) ∧
    ((Execute passingMonitor ⟨⟨30000000, 30000000, 10, 10, 90, 5⟩, 80⟩).status =
        StrategyStatus.complete ∧
      (Execute passingMonitor ⟨⟨30000000, 30000000, 10, 10, 90, 5⟩, 80⟩).traffic = 100 ∧
      (Execute passingMonitor ⟨⟨30000000, 30000000, 10, 10, 90, 5⟩, 80⟩).err = none ∧
      (Execute passingMonitor ⟨⟨30000000, 30000000, 10, 10, 90, 5⟩, 80⟩).plugin.currentTraffic =
        100) :=
  ⟨rfl, (Execute_advance passingMonitor ⟨⟨30000000, 30000000, 10, 10, 90, 5⟩, 10⟩ 10 rfl
      (by decide) ⟨0, by decide, rfl⟩).2.1 (by decide),
    (Execute_advance passingMonitor ⟨⟨30000000, 30000000, 10, 10, 90, 5⟩, 80⟩ 80 rfl
      (by decide) ⟨0, by decide, rfl⟩).1 (by decide)⟩

/-- C3: after a Configure that accepted the configuration, Execute on the sentinel
currentTraffic = -1 returns (success, t, nil) without a call of Check, t being the
configured initial_traffic (then in 0..100) or, when the key is absent, traffic_step; and
GetCandidateTraffic is t afterwards. -/
theorem Execute_bootstrap (D : Deps) (raw : RawConfig) (config : PluginConfig)
    (monitor : Nat → Int → Option String) (hvalid : Configure D raw = .ok config) :
    (Execute monitor (New config)).status = StrategyStatus.success ∧
    (Execute monitor (New config)).err = none ∧
    (Execute monitor (New config)).checks = 0 ∧
    (∀ t, raw.initial_traffic = some t →
      0 ≤ t ∧ t ≤ 100 ∧ (Execute monitor (New config)).traffic = t) ∧
    (raw.initial_traffic = none → (Execute monitor (New config)).traffic = raw.traffic_step) ∧
    GetCandidateTraffic (Execute monitor (New config)).plugin =
      (Execute monitor (New config)).traffic := by
  unfold Configure at hvalid
  split at hvalid
  · rename_i hnil
    cases hvalid
    have hrange : 0 ≤ effectiveInitialTraffic raw ∧ effectiveInitialTraffic raw ≤ 100 := by
      by_contra hcon
      unfold validationErrors at hnil
      rw [if_neg hcon] at hnil
      simp at hnil
    refine ⟨rfl, rfl, rfl, ?_, ?_, rfl⟩
    · intro t ht
      have heff : effectiveInitialTraffic raw = t := by
        unfold effectiveInitialTraffic; rw [ht]
      rw [heff] at hrange
      refine ⟨hrange.1, hrange.2, ?_⟩
      simp [Execute, New, heff]
    · intro ht
      have heff : effectiveInitialTraffic raw = raw.traffic_step := by
        unfold effectiveInitialTraffic; rw [ht]
      simp [Execute, New, heff]
  · cases hvalid

/-- Witness of C3: `TestSetsIntitialTraficToTrafficStepWhenNotSetAndReturnsFirstRun`, no
initial_traffic and traffic_step 20. -/
theorem Execute_bootstrap_witness :
    Configure testDeps canaryStrategyWithoutInitial = .ok ⟨30000000, 30000000, 20, 20, 90, 5⟩ ∧
    (Execute passingMonitor (New ⟨30000000, 30000000, 20, 20, 90, 5⟩)).status =
      StrategyStatus.success ∧
    (Execute passingMonitor (New ⟨30000000, 30000000, 20, 20, 90, 5⟩)).checks = 0 ∧
    (Execute passingMonitor (New ⟨30000000, 30000000, 20, 20, 90, 5⟩)).traffic = 20 :=
  ⟨rfl,
    (Execute_bootstrap testDeps canaryStrategyWithoutInitial
      ⟨30000000, 30000000, 20, 20, 90, 5⟩ passingMonitor rfl).1,
    (Execute_bootstrap testDeps canaryStrategyWithoutInitial
      ⟨30000000, 30000000, 20, 20, 90, 5⟩ passingMonitor rfl).2.2.1,
    (Execute_bootstrap testDeps canaryStrategyWithoutInitial
      ⟨30000000, 30000000, 20, 20, 90, 5⟩ passingMonitor rfl).2.2.2.2.1 rfl⟩


theorem validDuration_iff (D : Deps) (text : String) :
    validDuration D text = true ↔ ∃ d, D.parseDuration text = some d ∧ 0 ≤ d := by
  unfold validDuration
  cases h : D.parseDuration text with
  | none => simp
  | some d => simp

theorem joinErrors_contains : ∀ (errs : List String) (m : String), m ∈ errs →
    Contains (joinErrors errs) m := by
  intro errs
  induction errs with
  | nil => intro m hm; simp at hm
  | cons e rest ih =>
    intro m hm
    cases rest with
    | nil =>
      have hme : m = e := by simpa using hm
      subst hme
      exact ⟨[], [], by simp [joinErrors]⟩
    | cons e' rest' =>
      rcases List.mem_cons.mp hm with hme | hmr
      · subst hme
        exact ⟨[], ("\n" ++ joinErrors (e' :: rest')).data, by simp [joinErrors]⟩
      · obtain ⟨u, v, huv⟩ := ih m hmr
        exact ⟨(e ++ "\n").data ++ u, v, by
          simp [joinErrors, ← huv]⟩

theorem violated_mem_validationErrors (D : Deps) (raw : RawConfig) (r : Rule)
    (h : Rule.violated D raw r) : Rule.message D r ∈ validationErrors D raw := by
  unfold validationErrors
  cases r with
  | initialDelay =>
    have hv : ¬ validDuration D (effectiveInitialDelay raw) = true := by
      rw [validDuration_iff]; exact h
    simp [Rule.message, hv]
  | interval =>
    have hv : ¬ validDuration D raw.interval = true := by
      rw [validDuration_iff]; exact h
    simp [Rule.message, hv]
  | initialTraffic =>
    have hv : ¬ (0 ≤ effectiveInitialTraffic raw ∧ effectiveInitialTraffic raw ≤ 100) := by
      simp only [Rule.violated] at h; omega
    simp [Rule.message, hv]
  | trafficStep =>
    have hv : ¬ (1 ≤ raw.traffic_step ∧ raw.traffic_step ≤ 100) := by
      simp only [Rule.violated] at h; omega
    simp [Rule.message, hv]
  | maxTraffic =>
    have hv : ¬ (0 ≤ raw.max_traffic ∧ raw.max_traffic ≤ 100) := by
      simp only [Rule.violated] at h; omega
    simp [Rule.message, hv]
  | errorThreshold =>
    have hv : ¬ (0 ≤ raw.error_threshold) := by
      simp only [Rule.violated] at h; omega
    simp [Rule.message, hv]

theorem validationErrors_nil_iff (D : Deps) (raw : RawConfig) :
    validationErrors D raw = [] ↔ ∀ r, ¬ Rule.violated D raw r := by
  constructor
  · intro hnil r hr
    have := violated_mem_validationErrors D raw r hr
    rw [hnil] at this
    simp at this
  · intro hall
    have h1 := (validDuration_iff D (effectiveInitialDelay raw)).mpr
      (not_not.mp (hall .initialDelay))
    have h2 := (validDuration_iff D raw.interval).mpr (not_not.mp (hall .interval))
    have h3 := hall .initialTraffic
    have h4 := hall .trafficStep
    have h5 := hall .maxTraffic
    have h6 := hall .errorThreshold
    simp only [Rule.violated] at h3 h4 h5 h6
    have h3' : 0 ≤ effectiveInitialTraffic raw ∧ effectiveInitialTraffic raw ≤ 100 := by omega
    have h4' : 1 ≤ raw.traffic_step ∧ raw.traffic_step ≤ 100 := by omega
    have h5' : 0 ≤ raw.max_traffic ∧ raw.max_traffic ≤ 100 := by omega
    have h6' : 0 ≤ raw.error_threshold := by omega
    unfold validationErrors
    rw [if_pos h1, if_pos h2, if_pos h3', if_pos h4', if_pos h5', if_pos h6']
    rfl

/-- C9: for every configuration, Configure returns one error whose text contains the
message of every rule the configuration violates (initial_delay and interval parse as
non-negative durations, initial_traffic in 0..100, traffic_step in 1..100, max_traffic in
0..100, error_threshold ≥ 0, the two keys with a default being taken after defaulting),
and Configure accepts the configuration exactly when no rule is violated. -/
theorem Configure_reports_every_violation (D : Deps) (raw : RawConfig) :
    (∀ r : Rule, Rule.violated D raw r →
      ∃ e, Configure D raw = .error e ∧ Contains e (Rule.message D r)) ∧
    ((∃ config, Configure D raw = .ok config) ↔ ∀ r : Rule, ¬ Rule.violated D raw r) := by
  constructor
  · intro r hr
    have hmem := violated_mem_validationErrors D raw r hr
    unfold Configure
    split
    · rename_i hnil
      rw [hnil] at hmem
      simp at hmem
    · exact ⟨_, rfl, joinErrors_contains _ _ hmem⟩
  · rw [← validationErrors_nil_iff]
    unfold Configure
    constructor
    · rintro ⟨config, h⟩
      split at h
      · assumption
      · cases h
    · intro hnil
      rw [hnil]
      exact ⟨_, rfl⟩

/-- Witness of C9: `canaryStrategyWithValidationErrors` of `TestValidatesConfig` violates
the six rules, and the one error of Configure contains the six messages. -/
theorem Configure_reports_every_violation_witness :
    (∃ e, Configure testDeps canaryStrategyWithValidationErrors = .error e ∧
      Contains e testDeps.ErrInvalidInitialDelay) ∧
    (∃ e, Configure testDeps canaryStrategyWithValidationErrors = .error e ∧
      Contains e testDeps.ErrInvalidInterval) ∧
    (∃ e, Configure testDeps canaryStrategyWithValidationErrors = .error e ∧
      Contains e testDeps.ErrInitialTraffic) ∧
    (∃ e, Configure testDeps canaryStrategyWithValidationErrors = .error e ∧
      Contains e testDeps.ErrTrafficStep) ∧
    (∃ e, Configure testDeps canaryStrategyWithValidationErrors = .error e ∧
      Contains e testDeps.ErrMaxTraffic) ∧
    (∃ e, Configure testDeps canaryStrategyWithValidationErrors = .error e ∧
      Contains e testDeps.ErrThreshold) :=
  ⟨(Configure_reports_every_violation testDeps canaryStrategyWithValidationErrors).1
      .initialDelay (by
        rintro ⟨d, hd, _⟩
        have hnone : testDeps.parseDuration
            (effectiveInitialDelay canaryStrategyWithValidationErrors) = none := by decide
        rw [hnone] at hd
        cases hd),
    (Configure_reports_every_violation testDeps canaryStrategyWithValidationErrors).1
      .interval (by
        rintro ⟨d, hd, _⟩
        have hnone : testDeps.parseDuration canaryStrategyWithValidationErrors.interval =
            none := by decide
        rw [hnone] at hd
        cases hd),
    (Configure_reports_every_violation testDeps canaryStrategyWithValidationErrors).1
      .initialTraffic (Or.inr (by decide)),
    (Configure_reports_every_violation testDeps canaryStrategyWithValidationErrors).1
      .trafficStep (Or.inr (by decide)),
    (Configure_reports_every_violation testDeps canaryStrategyWithValidationErrors).1
      .maxTraffic (Or.inl (by decide)),
    (Configure_reports_every_violation testDeps canaryStrategyWithValidationErrors).1
      .errorThreshold (by show (-1 : Int) < 0; decide)⟩

end Canary
